import Mathlib

/-!
Verification of the AST assembly engine of `src/render.ts` (ts-cli).

The TypeScript source is shallowly embedded: the fragment of the TypeScript
compiler's node-factory API that `render.ts` actually uses is modelled by the
inductive `Node`, each `ts.createXyz` factory call becoming the corresponding
constructor application.  Every function of `render.ts` is translated into a
Lean function of the same name over this embedding.  JavaScript behaviour that
the types hide is made explicit:

* `Array.prototype.reverse` mutates the receiver in place, so
  `generateCallableChain` is modelled in state-passing style
  (`generateCallableChainSt` also returns the final contents of the caller's
  `calls` array);
* lodash `defaults(object, source)` writes the missing fields into `object`
  itself, so the post-state of the options argument of `render` is exposed as
  `renderOptionsAfter`;
* the iterable-spread `[...x]` of a non-iterable value throws a TypeError at
  run time, so `makeCliCallNode` (which spreads an ArrayLiteralExpression
  node) and everything reaching it return `Except`.
-/

namespace TsCli

/-- The fragment of the TypeScript AST that `render.ts` constructs.  Each
constructor corresponds to one node-factory function used by the source
(`ts.createIdentifier`, `ts.createStringLiteral`, `ts.createCall`, ...);
fields that the source always passes as `undefined` (decorators, the
asterisk token, type parameters, question tokens) are omitted. -/
inductive Node where
  | ident (name : String)
  | strLit (value : String)
  | numLit (value : String)
  | propertyAccess (expr : Node) (nm : Node)
  | call (callee : Node) (typeArguments : Option (List Node)) (arguments : List Node)
  | arrayLit (elements : List Node) (multiLine : Bool)
  | expressionStatement (expr : Node)
  | importDeclaration (clause : Node) (modulePath : Node)
  | importClause (defaultName : Option Node) (namedBindings : Option Node)
  | namespaceImport (nm : Node)
  | namedImports (specifiers : List Node)
  | importSpecifier (propertyName : Option Node) (nm : Node)
  | functionDeclaration (modifiers : List Node) (nm : Node) (params : List Node)
      (returnType : Node) (body : Node)
  | modifier (kind : String)
  | keywordType (kind : String)
  | typeReference (nm : Node) (typeArguments : List Node)
  | arrayType (elementType : Node)
  | parameter (nm : Node) (type? : Option Node) (initializer : Option Node)
  | block (statements : List Node) (multiLine : Bool)
  | returnStmt (expr : Node)
  | arrowFunction (params : List Node) (body : Node)
  | variableStatement (declarationList : Node)
  | variableDeclarationList (declarations : List Node) (isConst : Bool)
  | objectBindingPattern (elements : List Node)
  | bindingElement (dotDotDot : Bool) (propertyName : Option Node) (nm : Node)
      (initializer : Option Node)
  | variableDeclaration (nm : Node) (type? : Option Node) (initializer : Option Node)
deriving Repr

/-- A `ts.CallExpression` as a record, mirroring the three fields the source
reads from such nodes (`expression`, `typeArguments`, `arguments`). -/
structure CallExpr where
  expression : Node
  typeArguments : Option (List Node)
  arguments : List Node

/-- Embeds a call-expression record back into the node universe. -/
def CallExpr.toNode (c : CallExpr) : Node :=
  Node.call c.expression c.typeArguments c.arguments

/-- An entry of `TransformResult.ref` (a `Map` entry keyed by a source file).
`specifier` carries the value of the external ts-morph computation
`outputSourceFile.getRelativePathAsModuleSpecifierTo(sourceFile)`, and
`defs` carries the default-export declarations of the entry, each represented
by the name the external `getFunctionDeclarationDefaultName` derives for it
(that helper lives in `transformer.ts`, outside the slice under review). -/
structure RefEntry where
  specifier : String
  defs : List String
  named : List String

/-- The structured description of the target function handed to `render`
(produced by the upstream transform stage). -/
structure TransformResult where
  name : String
  description : Node
  positionals : List (String × CallExpr)
  options : List (String × CallExpr)
  ref : List RefEntry

/-- A ts-morph source file, reduced to the only thing `render.ts` reads from
one: its top-level statements (via `getStatements()[i].compilerNode`). -/
structure SourceFile where
  statements : List Node

/-- The generator `Context`.  `requireResolve` models node's
`require.resolve`, used in stdin mode to turn the bare package name into an
on-disk module path (external to this slice). -/
structure Context where
  stdin : Bool
  args : Option (List String)
  requireResolve : String → String

/-- `RenderOptions` of `render.ts`. -/
structure RenderOptions where
  lib : String
  functionName : String
  strict : Bool
  help : Bool
  helpAlias : Bool
  version : Bool
  asyncFunction : Bool
  runnable : Bool
deriving Repr

/-- `Partial<RenderOptions>`: every field may be absent. -/
structure PartialRenderOptions where
  lib : Option String := none
  functionName : Option String := none
  strict : Option Bool := none
  help : Option Bool := none
  helpAlias : Option Bool := none
  version : Option Bool := none
  asyncFunction : Option Bool := none
  runnable : Option Bool := none
deriving Repr

/-- const CLI_LIB_NAME = "yargs" -/
def CLI_LIB_NAME : String := "yargs"

/-- const FUNCTION_NAME = "cli" -/
def FUNCTION_NAME : String := "cli"

/-- `DEFAULT_RENDER_OPTIONS` of `render.ts`. -/
def DEFAULT_RENDER_OPTIONS : RenderOptions :=
  { lib := CLI_LIB_NAME
    functionName := FUNCTION_NAME
    strict := true
    help := true
    helpAlias := true
    version := true
    asyncFunction := false
    runnable := false }

/-- lodash `defaults(object, source)`: fields present on `object` win, fields
absent on `object` are taken from `source`.  (The source object is returned;
lodash also writes the missing fields into `object` itself — that in-place
effect is exposed separately, see `renderOptionsAfter`.) -/
def defaults (object : PartialRenderOptions) (source : RenderOptions) : RenderOptions :=
  { lib := object.lib.getD source.lib
    functionName := object.functionName.getD source.functionName
    strict := object.strict.getD source.strict
    help := object.help.getD source.help
    helpAlias := object.helpAlias.getD source.helpAlias
    version := object.version.getD source.version
    asyncFunction := object.asyncFunction.getD source.asyncFunction
    runnable := object.runnable.getD source.runnable }

/-- The fully-populated record with every field present; this is the shape
lodash `defaults` leaves its first argument in. -/
def PartialRenderOptions.ofFull (o : RenderOptions) : PartialRenderOptions :=
  { lib := some o.lib
    functionName := some o.functionName
    strict := some o.strict
    help := some o.help
    helpAlias := some o.helpAlias
    version := some o.version
    asyncFunction := some o.asyncFunction
    runnable := some o.runnable }

/-- `replaceCallableProperty(call, expr)` of `render.ts`: rebuilds `call`
with its callee replaced by the property access `expr.<callee>`.  The
TypeScript signature restricts `call` to `ts.CallExpression`, so the
catch-all clause is dead code; note that the callee is transplanted verbatim
(the source merely casts it with `as ts.Identifier`, it never checks it). -/
def replaceCallableProperty (call : Node) (expr : Node) : Node :=
  match call with
  | .call callee typeArguments arguments =>
      .call (.propertyAccess expr callee) typeArguments arguments
  | other => other

/-- `generateCallableChain(calls, expr)` of `render.ts`, in state-passing
style.  The source runs `calls.reverse().reduce(...)`; JavaScript's
`Array.prototype.reverse` reverses the receiver in place and returns that
same array, so the second component records the contents of the caller's
`calls` array after the call returns. -/
def generateCallableChainSt (calls : List Node) (expr : Node) : Node × List Node :=
  let reversed := calls.reverse
  ((reversed.foldl
      (fun acc call => fun e => replaceCallableProperty (acc call) e)
      (fun a => a)) expr,
   reversed)

/-- The value `generateCallableChain` returns. -/
def generateCallableChain (calls : List Node) (expr : Node) : Node :=
  (generateCallableChainSt calls expr).1

/-- `makeArrowFunctionNode(iden, body)` of `render.ts`. -/
def makeArrowFunctionNode (iden : String) (body : List Node) : Node :=
  Node.arrowFunction
    [Node.parameter (Node.ident iden) none none]
    (Node.block body false)

/-- `makePositionalBindingNodes()` (inner helper of `makeHandler`). -/
def makePositionalBindingNodes (result : TransformResult) : List Node :=
  result.positionals.map fun p =>
    Node.bindingElement false none (Node.ident p.1) none

/-- `makePositionalIdentifierNodes()` (inner helper of `makeHandler`). -/
def makePositionalIdentifierNodes (result : TransformResult) : List Node :=
  result.positionals.map fun p => Node.ident p.1

/-- `makeDeconstructNode()` (inner helper of `makeHandler`): the
`const { _, $0, ...positionals, ...options } = args` statement. -/
def makeDeconstructNode (result : TransformResult) : Node :=
  Node.variableStatement
    (Node.variableDeclarationList
      [Node.variableDeclaration
        (Node.objectBindingPattern
          ([Node.bindingElement false none (Node.ident "_") none,
            Node.bindingElement false none (Node.ident "$0") none] ++
           makePositionalBindingNodes result ++
           (if result.options.length = 0 then []
            else [Node.bindingElement true none (Node.ident "options") none])))
        none
        (some (Node.ident "args"))]
      true)

/-- `makeCommandApplyNode()` (inner helper of `makeHandler`): the dispatch
call `name(positionals..., options?)`. -/
def makeCommandApplyNode (result : TransformResult) : Node :=
  Node.expressionStatement
    (Node.call (Node.ident result.name) none
      (makePositionalIdentifierNodes result ++
       (if result.options.length = 0 then [] else [Node.ident "options"])))

/-- `makeHandler(result)` of `render.ts`.  (The source also builds a local
`acc` array of the definition calls here and never uses it; that dead code
has no observable effect and is omitted.) -/
def makeHandler (result : TransformResult) : Node :=
  makeArrowFunctionNode "args"
    [makeDeconstructNode result, makeCommandApplyNode result]

/-- `makeBuilder(result)` of `render.ts`: the
`yargs => { return yargs.<positional defs>.<option defs> }` callback. -/
def makeBuilder (result : TransformResult) : Node :=
  let acc : List Node :=
    result.positionals.map (fun p => p.2.toNode) ++
    result.options.map (fun p => p.2.toNode)
  let callExpr := generateCallableChain acc (Node.ident "yargs")
  Node.arrowFunction
    [Node.parameter (Node.ident "yargs") none none]
    (Node.block [Node.returnStmt callExpr] true)

/-- `Array.prototype.join(sep)` on a list of strings. -/
def joinWith (sep : String) : List String → String
  | [] => ""
  | a :: as' => as'.foldl (fun acc s => acc ++ sep ++ s) a

/-- `makePositionalCommandString(result)` of `render.ts`. -/
def makePositionalCommandString (result : TransformResult) : Node :=
  let acc : List String :=
    ["$0"] ++
    result.positionals.map (fun p => "<" ++ p.1 ++ ">") ++
    (if result.options.length = 0 then [] else ["[...options]"])
  Node.strLit (joinWith " " acc)

/-- `makeCommandNode(result)` of `render.ts`. -/
def makeCommandNode (result : TransformResult) : Node :=
  Node.call (Node.ident "command") none
    [makePositionalCommandString result,
     result.description,
     makeBuilder result,
     makeHandler result]

/-- An operand of a JavaScript iterable spread `[...x]`: either an actual
array or (by mistake) a bare AST node object. -/
inductive SpreadOperand where
  | jsArray (elements : List Node)
  | astNode (n : Node)

/-- JavaScript iterable spread: arrays spread to their elements, any other
object (an AST node has no iterator) makes the expression throw. -/
def jsSpread : SpreadOperand → Except String (List Node)
  | .jsArray es => .ok es
  | .astNode _ => .error "TypeError: spread of non-iterable object"

/-- `makeCliCallNode(name, args?)` of `render.ts`.  The source builds the
argument list as `[...(args ? ts.createArrayLiteral(...) : [])]` — when
`args` is present the spread operand is the ArrayLiteralExpression node
itself, not an array, so evaluation throws. -/
def makeCliCallNode (name : String) (args : Option (List String)) :
    Except String Node :=
  match jsSpread
      (match args with
       | some a => .astNode (Node.arrayLit (a.map Node.strLit) false)
       | none => .jsArray []) with
  | .ok spreadArgs => .ok (Node.call (Node.ident name) none spreadArgs)
  | .error e => .error e

/-- `makeLibImportDeclarationNode(exporter, path, context)` of `render.ts`:
`import * as <exporter> from "<path or resolved path>"`. -/
def makeLibImportDeclarationNode (exporter : String) (path : String)
    (context : Context) : Node :=
  let modulePath := if context.stdin then context.requireResolve path else path
  Node.importDeclaration
    (Node.importClause none (some (Node.namespaceImport (Node.ident exporter))))
    (Node.strLit modulePath)

/-- `makeRefImportDeclarationNode(outputSourceFile, result)` of `render.ts`:
one import declaration per `ref` entry.  (The relative module specifier each
entry's source file gets against `outputSourceFile` is external path
computation and is carried by the entry itself, see `RefEntry`.) -/
def makeRefImportDeclarationNode (_outputSourceFile : SourceFile)
    (result : TransformResult) : List Node :=
  result.ref.map fun e =>
    Node.importDeclaration
      (Node.importClause
        (match e.defs with
         | [] => none
         | n :: _ => some (Node.ident n))
        (some (Node.namedImports
          (e.named.map fun i => Node.importSpecifier none (Node.ident i)))))
      (Node.strLit e.specifier)

/-- `makeWrapperFunctionDeclaration(body, options)` of `render.ts`:
`export default [async] function <name>(args: string[] = process.argv.slice(2)): void { body }`. -/
def makeWrapperFunctionDeclaration (body : List Node) (options : RenderOptions) : Node :=
  let modifiers : List Node :=
    [Node.modifier "export", Node.modifier "default"] ++
    (if options.asyncFunction then [Node.modifier "async"] else [])
  let returnType :=
    if options.asyncFunction then
      Node.typeReference (Node.ident "Promise") [Node.keywordType "void"]
    else
      Node.keywordType "void"
  Node.functionDeclaration
    modifiers
    (Node.ident options.functionName)
    [Node.parameter (Node.ident "args")
      (some (Node.arrayType (Node.keywordType "string")))
      (some (Node.call
        (Node.propertyAccess
          (Node.propertyAccess (Node.ident "process") (Node.ident "argv"))
          (Node.ident "slice"))
        none
        [Node.numLit "2"]))]
    returnType
    (Node.block body true)

/-- `MakeWrapperOptions` of `render.ts`. -/
structure MakeWrapperOptions where
  outputSourceFile : SourceFile
  entrySourceFile : SourceFile
  result : TransformResult
  context : Context
  options : RenderOptions

/-- `makeWrapper(body, options)` of `render.ts`. -/
def makeWrapper (body : List Node) (options : MakeWrapperOptions) :
    Except String (List Node) :=
  let nodes₁ := [makeLibImportDeclarationNode "yargs" "yargs" options.context]
  let nodes₂ := nodes₁ ++
    (if options.context.stdin then options.entrySourceFile.statements
     else makeRefImportDeclarationNode options.outputSourceFile options.result)
  let nodes₃ := nodes₂ ++ [makeWrapperFunctionDeclaration body options.options]
  if options.options.runnable || options.context.stdin then
    match makeCliCallNode options.options.functionName options.context.args with
    | .ok c => .ok (nodes₃ ++ [c])
    | .error e => .error e
  else
    .ok nodes₃

/-- The `acc` array `render` pushes the top-level chain links into
(lines 36–41 of `render.ts`): `strict()?`, `command(...)`, `help()?`,
`alias("help","h")?`, `version()?`, `parse(args)`. -/
def renderChainCalls (result : TransformResult) (opts : RenderOptions) : List Node :=
  (if opts.strict then [Node.call (Node.ident "strict") none []] else []) ++
  [makeCommandNode result] ++
  (if opts.help then [Node.call (Node.ident "help") none []] else []) ++
  (if opts.helpAlias then
    [Node.call (Node.ident "alias") none [Node.strLit "help", Node.strLit "h"]]
   else []) ++
  (if opts.version then [Node.call (Node.ident "version") none []] else []) ++
  [Node.call (Node.ident "parse") none [Node.ident "args"]]

/-- The top-level fluent chain `render` builds:
`generateCallableChain(acc, ts.createIdentifier(lib))`. -/
def renderTopChain (result : TransformResult) (opts : RenderOptions) : Node :=
  generateCallableChain (renderChainCalls result opts) (Node.ident opts.lib)

/-- `render(result, outputSourceFile, entrySourceFile, options, context)` of
`render.ts`. -/
def render (result : TransformResult) (outputSourceFile : SourceFile)
    (entrySourceFile : SourceFile) (options : PartialRenderOptions)
    (context : Context) : Except String (List Node) :=
  let opts := defaults options DEFAULT_RENDER_OPTIONS
  makeWrapper
    [Node.expressionStatement (renderTopChain result opts)]
    { outputSourceFile := outputSourceFile
      entrySourceFile := entrySourceFile
      result := result
      context := context
      options := opts }

/-- The contents of the caller's `options` object after `render` returns:
lodash `defaults(options, DEFAULT_RENDER_OPTIONS)` assigns every field that
was missing on `options` into it, leaving it fully populated. -/
def renderOptionsAfter (options : PartialRenderOptions) : PartialRenderOptions :=
  PartialRenderOptions.ofFull (defaults options DEFAULT_RENDER_OPTIONS)

/-! ## Observers

Structural observers on the embedded trees, used to state the claims. -/

/-- Is the node a call expression? -/
def isCall : Node → Bool
  | .call _ _ _ => true
  | _ => false

/-- Is the node a bare identifier? -/
def isIdent : Node → Bool
  | .ident _ => true
  | _ => false

/-- The immediate receiver a chain hangs off: for a call through a property
access, the expression the property is read from; anything else is its own
root. -/
def chainRoot : Node → Node
  | .call (.propertyAccess b _) _ _ => b
  | n => n

/-- Detects a tree whose head is a property access in whose *name* position a
non-identifier node sits (a malformed access: the TypeScript factory expects
an identifier there). -/
def malformedAccessHead : Node → Bool
  | .call (.propertyAccess _ nm) _ _ => !(isIdent nm)
  | .propertyAccess _ nm => !(isIdent nm)
  | _ => false

mutual

/-- The flat token stream a printer emits for a node (a property access
prints as `expression . name`, exactly as the TypeScript emitter does). -/
def printTokens : Node → List String
  | .ident s => [s]
  | .strLit s => ["\"" ++ s ++ "\""]
  | .numLit s => [s]
  | .propertyAccess e n => printTokens e ++ ["."] ++ printTokens n
  | .call f tys args =>
      printTokens f ++
      (match tys with
       | none => []
       | some l => ["<"] ++ printTokensSep l ++ [">"]) ++
      ["("] ++ printTokensSep args ++ [")"]
  | .arrayLit es _ => ["["] ++ printTokensSep es ++ ["]"]
  | .expressionStatement e => printTokens e ++ [";"]
  | .importDeclaration c p => ["import"] ++ printTokens c ++ ["from"] ++ printTokens p
  | .importClause d b =>
      (match d with | none => [] | some n => printTokens n) ++
      (match b with | none => [] | some n => printTokens n)
  | .namespaceImport n => ["*", "as"] ++ printTokens n
  | .namedImports ss => printTokensSep ss
  | .importSpecifier p n =>
      (match p with | none => [] | some q => printTokens q ++ ["as"]) ++ printTokens n
  | .functionDeclaration ms n ps r b =>
      printTokensSep ms ++ ["function"] ++ printTokens n ++ ["("] ++
      printTokensSep ps ++ [")", ":"] ++ printTokens r ++ printTokens b
  | .modifier k => [k]
  | .keywordType k => [k]
  | .typeReference n tys => printTokens n ++ ["<"] ++ printTokensSep tys ++ [">"]
  | .arrayType t => printTokens t ++ ["[", "]"]
  | .parameter n t i =>
      printTokens n ++
      (match t with | none => [] | some x => [":"] ++ printTokens x) ++
      (match i with | none => [] | some x => ["="] ++ printTokens x)
  | .block ss _ => printTokensSep ss
  | .returnStmt e => ["return"] ++ printTokens e
  | .arrowFunction ps b => ["("] ++ printTokensSep ps ++ [")", "=>"] ++ printTokens b
  | .variableStatement l => printTokens l ++ [";"]
  | .variableDeclarationList ds c => [if c then "const" else "let"] ++ printTokensSep ds
  | .objectBindingPattern es => printTokensSep es
  | .bindingElement d p n i =>
      (if d then ["..."] else []) ++
      (match p with | none => [] | some q => printTokens q ++ [":"]) ++
      printTokens n ++
      (match i with | none => [] | some x => ["="] ++ printTokens x)
  | .variableDeclaration n t i =>
      printTokens n ++
      (match t with | none => [] | some x => [":"] ++ printTokens x) ++
      (match i with | none => [] | some x => ["="] ++ printTokens x)

/-- Token stream of a node list, comma-separated. -/
def printTokensSep : List Node → List String
  | [] => []
  | n :: ns => printTokens n ++ [","] ++ printTokensSep ns

end

/-- The token stream a tail of chain links `.c1(a1).c2(a2)...` contributes. -/
def chainTokens : List Node → List String
  | [] => []
  | c :: cs => ["."] ++ printTokens c ++ chainTokens cs

/-- Modelled from the spec: the chain shape the specification promises for
the Chain Builder — "Result: base.Call1(...).Call2(...)....CallN(...), a
right-nested tree of call expressions whose leftmost receiver is base", each
link rewriting one standalone call by replacing its bare callee with a
property access off the chain built so far.  Used only to compare
`generateCallableChain` against the specified shape. -/
def specRightNestedChain (calls : List Node) (base : Node) : Node :=
  calls.foldl
    (fun acc c =>
      match c with
      | .call callee typeArguments arguments =>
          .call (.propertyAccess acc callee) typeArguments arguments
      | _ => acc)
    base

/-- Parameter names of an arrow function. -/
def arrowParamNames : Node → List String
  | .arrowFunction ps _ =>
      ps.map fun p =>
        match p with
        | .parameter (.ident s) _ _ => s
        | _ => ""
  | _ => []

/-- The statements of an arrow function's block body. -/
def arrowBodyStatements : Node → List Node
  | .arrowFunction _ (.block ss _) => ss
  | _ => []

/-- The expression returned by an arrow function whose body is a single
return statement. -/
def arrowReturnExpr : Node → Option Node
  | .arrowFunction _ (.block [.returnStmt e] _) => some e
  | _ => none

/-- The binding elements of a destructuring variable statement with a single
object-binding-pattern declaration. -/
def destructuredBindings : Node → List Node
  | .variableStatement
      (.variableDeclarationList
        [.variableDeclaration (.objectBindingPattern els) _ _] _) => els
  | _ => []

/-- The initializer of such a destructuring statement. -/
def destructuredInit : Node → Option Node
  | .variableStatement
      (.variableDeclarationList
        [.variableDeclaration (.objectBindingPattern _) _ i] _) => i
  | _ => none

/-- The bound name of a binding element. -/
def bindingElementName : Node → String
  | .bindingElement _ _ (.ident s) _ => s
  | _ => ""

/-- Whether a binding element is a rest capture (`...name`). -/
def bindingElementIsRest : Node → Bool
  | .bindingElement r _ _ _ => r
  | _ => false

/-- The callee of an expression statement that is a call. -/
def stmtCallCallee : Node → Option Node
  | .expressionStatement (.call f _ _) => some f
  | _ => none

/-- The argument list of an expression statement that is a call. -/
def stmtCallArgs : Node → List Node
  | .expressionStatement (.call _ _ a) => a
  | _ => []

/-- The local name an import declaration binds through a namespace import. -/
def namespaceImportName : Node → Option String
  | .importDeclaration (.importClause _ (some (.namespaceImport (.ident s)))) _ =>
      some s
  | _ => none

/-- Concatenation of a list of strings. -/
def concatList : List String → String
  | [] => ""
  | s :: r => s ++ concatList r

/-! ## Test fixtures

Concrete values used by closed statements (counterexamples and witnesses). -/

/-- A sample transform result: positionals `file`, `out` and one option. -/
def sampleResult : TransformResult :=
  { name := "fn"
    description := Node.strLit "sample description"
    positionals := [("file", ⟨Node.ident "positional", none, [Node.strLit "file"]⟩),
                    ("out", ⟨Node.ident "positional", none, [Node.strLit "out"]⟩)]
    options := [("verbose", ⟨Node.ident "option", none, [Node.strLit "verbose"]⟩)]
    ref := [] }

/-- A sample transform result with no positionals and no options. -/
def sampleBareResult : TransformResult :=
  { name := "fn"
    description := Node.strLit "sample description"
    positionals := []
    options := []
    ref := [] }

/-- An output file fixture. -/
def sampleOutputFile : SourceFile := ⟨[]⟩

/-- An entry file fixture with one top-level statement. -/
def sampleEntryFile : SourceFile :=
  ⟨[Node.expressionStatement (Node.call (Node.ident "setup") none [])]⟩

/-- Context: no stdin, `args` present. -/
def sampleContextArgs : Context :=
  ⟨false, some ["a", "b"], fun _ => "/resolved/yargs"⟩

/-- Context: no stdin, no args. -/
def sampleContextPlain : Context :=
  ⟨false, none, fun _ => "/resolved/yargs"⟩

/-- Context: stdin mode, no args. -/
def sampleContextStdin : Context :=
  ⟨true, none, fun _ => "/resolved/yargs"⟩

/-- Wrapper-assembler options fixture in stdin mode. -/
def sampleWrapperStdin : MakeWrapperOptions :=
  { outputSourceFile := sampleOutputFile
    entrySourceFile := sampleEntryFile
    result := sampleBareResult
    context := sampleContextStdin
    options := DEFAULT_RENDER_OPTIONS }

/-- Wrapper-assembler options fixture: no stdin, not runnable. -/
def sampleWrapperPlain : MakeWrapperOptions :=
  { outputSourceFile := sampleOutputFile
    entrySourceFile := sampleEntryFile
    result := sampleBareResult
    context := sampleContextPlain
    options := DEFAULT_RENDER_OPTIONS }

/-- Does a successful render end in something other than an invocation (the
wrapper function declaration)? -/
def endsWithoutInvocation : Except String (List Node) → Bool
  | .ok ns =>
      match ns.getLast? with
      | some (.functionDeclaration _ _ _ _ _) => true
      | _ => false
  | .error _ => false

/-! ## Chain lemmas -/

/-- The empty chain returns the base expression unchanged. -/
theorem generateCallableChain_nil (B : Node) : generateCallableChain [] B = B := rfl

/-- The recursion `generateCallableChain` actually implements: the composed
closures evaluate to `replaceCallableProperty` of the chain of the *tail*
rooted at the *head call*, re-rooted onto the base. -/
theorem generateCallableChain_cons (c : Node) (cs : List Node) (B : Node) :
    generateCallableChain (c :: cs) B =
      replaceCallableProperty (generateCallableChain cs c) B := by
  simp [generateCallableChain, generateCallableChainSt, List.foldl_append]

/-- A node satisfying `isCall` is literally a call constructor. -/
theorem isCall_exists (X : Node) (h : isCall X = true) :
    ∃ f tys args, X = Node.call f tys args := by
  cases X
  case call f tys args => exact ⟨f, tys, args, rfl⟩
  all_goals simp [isCall] at h

/-- Re-rooting a call node yields a call node. -/
theorem isCall_replaceCallableProperty (X B : Node) (h : isCall X = true) :
    isCall (replaceCallableProperty X B) = true := by
  obtain ⟨f, tys, args, rfl⟩ := isCall_exists X h
  rfl

/-- Chaining call nodes onto a call node yields a call node. -/
theorem isCall_generateCallableChain (cs : List Node) (c : Node)
    (hcs : ∀ x ∈ cs, isCall x = true) (hc : isCall c = true) :
    isCall (generateCallableChain cs c) = true := by
  induction cs generalizing c with
  | nil => simpa [generateCallableChain_nil] using hc
  | cons d ds ih =>
      rw [generateCallableChain_cons]
      have hd : isCall d = true := hcs d (by simp)
      have hds : ∀ x ∈ ds, isCall x = true := fun x hx => hcs x (by simp [hx])
      exact isCall_replaceCallableProperty _ _ (ih d hds hd)

set_option maxHeartbeats 1000000 in
/-- Unfolding `printTokens` at a call node. -/
theorem printTokens_call (f : Node) (tys : Option (List Node)) (args : List Node) :
    printTokens (Node.call f tys args) =
      printTokens f ++
      (match tys with
       | none => []
       | some l => ["<"] ++ printTokensSep l ++ [">"]) ++
      ["("] ++ printTokensSep args ++ [")"] := by
  rw [printTokens.eq_def]

set_option maxHeartbeats 1000000 in
/-- Unfolding `printTokens` at a property access. -/
theorem printTokens_propertyAccess (e n : Node) :
    printTokens (Node.propertyAccess e n) =
      printTokens e ++ ["."] ++ printTokens n := by
  rw [printTokens.eq_def]

/-- Printing a re-rooted call: the base, a dot, then the original call. -/
theorem printTokens_replaceCall (f : Node) (tys : Option (List Node))
    (args : List Node) (B : Node) :
    printTokens (replaceCallableProperty (Node.call f tys args) B) =
      printTokens B ++ ["."] ++ printTokens (Node.call f tys args) := by
  rw [show replaceCallableProperty (Node.call f tys args) B =
        Node.call (Node.propertyAccess B f) tys args from rfl,
      printTokens_call, printTokens_call, printTokens_propertyAccess]
  simp [List.append_assoc]

/-- Token stream of the generated chain: the base followed by one
`.call(args)` group per input call, in input order. -/
theorem printTokens_generateCallableChain :
    ∀ (calls : List Node) (B : Node), (∀ x ∈ calls, isCall x = true) →
      printTokens (generateCallableChain calls B) =
        printTokens B ++ chainTokens calls := by
  intro calls
  induction calls with
  | nil => intro B _; simp [generateCallableChain_nil, chainTokens]
  | cons c cs ih =>
      intro B h
      have hc : isCall c = true := h c (by simp)
      have hcs : ∀ x ∈ cs, isCall x = true := fun x hx => h x (by simp [hx])
      obtain ⟨f, tys, args, hX⟩ :=
        isCall_exists _ (isCall_generateCallableChain cs c hcs hc)
      rw [generateCallableChain_cons, hX, printTokens_replaceCall, ← hX, ih c hcs]
      simp [chainTokens]

/-- Token stream of the right-nested chain the specification describes: the
same base-then-links stream. -/
theorem printTokens_specRightNestedChain :
    ∀ (calls : List Node) (X : Node), (∀ x ∈ calls, isCall x = true) →
      printTokens (specRightNestedChain calls X) =
        printTokens X ++ chainTokens calls := by
  intro calls
  induction calls with
  | nil => intro X _; simp [specRightNestedChain, chainTokens]
  | cons c cs ih =>
      intro X h
      have hc : isCall c = true := h c (by simp)
      have hcs : ∀ x ∈ cs, isCall x = true := fun x hx => h x (by simp [hx])
      obtain ⟨f, tys, args, hX⟩ := isCall_exists c hc
      have hstep : specRightNestedChain (Node.call f tys args :: cs) X =
          specRightNestedChain cs
            (Node.call (Node.propertyAccess X f) tys args) := rfl
      rw [hX, hstep, ih _ hcs]
      simp [printTokens_call, printTokens_propertyAccess, chainTokens,
            List.append_assoc]

/-- The generated chain hangs directly off the base identifier. -/
theorem chainRoot_generateCallableChain (calls : List Node) (s : String)
    (h : ∀ x ∈ calls, isCall x = true) :
    chainRoot (generateCallableChain calls (Node.ident s)) = Node.ident s := by
  cases calls with
  | nil => rfl
  | cons c cs =>
      rw [generateCallableChain_cons]
      have hc : isCall c = true := h c (by simp)
      have hcs : ∀ x ∈ cs, isCall x = true := fun x hx => h x (by simp [hx])
      obtain ⟨f, tys, args, hX⟩ :=
        isCall_exists _ (isCall_generateCallableChain cs c hcs hc)
      rw [hX]
      rfl

/-! ## Claims -/

/-- Claim C1, counterexample.  For two standalone calls with bare-identifier
callees, the tree `generateCallableChain` returns is not the right-nested
tree of call expressions `B.a("1").b("2")` described by the claim: the result
is a single call expression carrying only the last call's arguments, whose
callee is a property access nesting the first call inside its name
position. -/
theorem claim_C1_counterexample :
    generateCallableChain
        [Node.call (Node.ident "a") none [Node.strLit "1"],
         Node.call (Node.ident "b") none [Node.strLit "2"]]
        (Node.ident "x") ≠
      specRightNestedChain
        [Node.call (Node.ident "a") none [Node.strLit "1"],
         Node.call (Node.ident "b") none [Node.strLit "2"]]
        (Node.ident "x") := by
  intro h
  rw [show generateCallableChain
        [Node.call (Node.ident "a") none [Node.strLit "1"],
         Node.call (Node.ident "b") none [Node.strLit "2"]]
        (Node.ident "x") =
      Node.call
        (Node.propertyAccess (Node.ident "x")
          (Node.propertyAccess
            (Node.call (Node.ident "a") none [Node.strLit "1"])
            (Node.ident "b")))
        none [Node.strLit "2"] from rfl,
      show specRightNestedChain
        [Node.call (Node.ident "a") none [Node.strLit "1"],
         Node.call (Node.ident "b") none [Node.strLit "2"]]
        (Node.ident "x") =
      Node.call
        (Node.propertyAccess
          (Node.call
            (Node.propertyAccess (Node.ident "x") (Node.ident "a"))
            none [Node.strLit "1"])
          (Node.ident "b"))
        none [Node.strLit "2"] from rfl] at h
  simp at h

/-- Claim C1 (amended).  For every sequence of standalone call expressions
and every base expression: the empty sequence returns the base unchanged; a
one-call sequence returns exactly the specified chain node
`B.C1(...)`; and in general the returned tree, although for two or more
calls it is a single call expression nesting the earlier calls inside
property-access name positions rather than the right-nested call tree, has
the same printed token stream as the specified chain
`B.C1(...).C2(...)....Cn(...)` — every call's arguments and type arguments
appear verbatim, in sequence order, with no re-ordering. -/
theorem claim_C1_amended (calls : List Node) (B : Node)
    (h : ∀ x ∈ calls, isCall x = true) :
    generateCallableChain [] B = B ∧
    (∀ c, isCall c = true →
      generateCallableChain [c] B = specRightNestedChain [c] B) ∧
    printTokens (generateCallableChain calls B) =
      printTokens (specRightNestedChain calls B) := by
  refine ⟨rfl, ?_, ?_⟩
  · intro c hc
    obtain ⟨f, tys, args, hX⟩ := isCall_exists c hc
    rw [hX]
    rfl
  · rw [printTokens_generateCallableChain calls B h,
        printTokens_specRightNestedChain calls B h]

/-- Witness for the amended claim C1, at one concrete call and base. -/
theorem claim_C1_witness :
    (∀ x ∈ [Node.call (Node.ident "a") none [Node.strLit "1"]],
      isCall x = true) ∧
    (generateCallableChain [] (Node.ident "x") = Node.ident "x" ∧
     (∀ c, isCall c = true →
       generateCallableChain [c] (Node.ident "x") =
         specRightNestedChain [c] (Node.ident "x")) ∧
     printTokens
         (generateCallableChain
           [Node.call (Node.ident "a") none [Node.strLit "1"]]
           (Node.ident "x")) =
       printTokens
         (specRightNestedChain
           [Node.call (Node.ident "a") none [Node.strLit "1"]]
           (Node.ident "x"))) :=
  ⟨by simp [isCall],
   claim_C1_amended [Node.call (Node.ident "a") none [Node.strLit "1"]]
     (Node.ident "x") (by simp [isCall])⟩

/-- Claim C3, counterexample.  `generateCallableChain` does mutate its input:
`calls.reverse()` reverses the caller's array in place, so after a call with
a two-element sequence the caller's array holds the elements in the opposite
order; and `render` mutates the caller's options object: lodash `defaults`
fills every unset field, so an empty partial object does not stay empty. -/
theorem claim_C3_counterexample :
    ¬ ((generateCallableChainSt
          [Node.call (Node.ident "a") none [],
           Node.call (Node.ident "b") none []]
          (Node.ident "x")).2 =
        [Node.call (Node.ident "a") none [],
         Node.call (Node.ident "b") none []] ∧
       renderOptionsAfter {} = ({} : PartialRenderOptions)) := by
  rintro ⟨h1, -⟩
  rw [show (generateCallableChainSt
        [Node.call (Node.ident "a") none [],
         Node.call (Node.ident "b") none []]
        (Node.ident "x")).2 =
      [Node.call (Node.ident "b") none [],
       Node.call (Node.ident "a") none []] from rfl] at h1
  simp at h1

/-- Claim C3 (amended).  `generateCallableChain` reverses the caller's call
array in place: afterwards the array holds exactly the same elements but in
reversed order (hence unchanged only for sequences of at most one element);
and `render` leaves the caller's partial options object fully populated —
lodash `defaults` writes the merge result back into it, so every field is
set afterwards.  New nodes are still freshly constructed; no input node is
mutated. -/
theorem claim_C3_amended (calls : List Node) (expr : Node)
    (options : PartialRenderOptions) :
    (generateCallableChainSt calls expr).2 = calls.reverse ∧
    ((generateCallableChainSt calls expr).2).Perm calls ∧
    (renderOptionsAfter options).lib.isSome = true ∧
    (renderOptionsAfter options).functionName.isSome = true ∧
    (renderOptionsAfter options).strict.isSome = true ∧
    (renderOptionsAfter options).help.isSome = true ∧
    (renderOptionsAfter options).helpAlias.isSome = true ∧
    (renderOptionsAfter options).version.isSome = true ∧
    (renderOptionsAfter options).asyncFunction.isSome = true ∧
    (renderOptionsAfter options).runnable.isSome = true := by
  refine ⟨rfl, ?_, rfl, rfl, rfl, rfl, rfl, rfl, rfl, rfl⟩
  exact List.reverse_perm calls

/-- Claim C4, counterexample.  A call whose callee is already a property
access (`a.b(...)`) is not rejected: `replaceCallableProperty` returns
normally and silently embeds the non-identifier callee in the name position
of the new property access, yielding a malformed tree — no
InvariantViolation, no error surfaced to the caller. -/
theorem claim_C4_counterexample :
    replaceCallableProperty
        (Node.call (Node.propertyAccess (Node.ident "a") (Node.ident "b"))
          none [])
        (Node.ident "x") =
      Node.call
        (Node.propertyAccess (Node.ident "x")
          (Node.propertyAccess (Node.ident "a") (Node.ident "b")))
        none [] ∧
    malformedAccessHead
        (replaceCallableProperty
          (Node.call (Node.propertyAccess (Node.ident "a") (Node.ident "b"))
            none [])
          (Node.ident "x")) = true :=
  ⟨rfl, rfl⟩

/-- Claim C4 (amended).  The Chain Builder performs no validation at all: for
every callee — identifier or not — `replaceCallableProperty` totally and
silently rebuilds the call with the callee transplanted into the name
position of a property access off the base; when the callee is not an
identifier the resulting tree is malformed (its property-access name is not
an identifier) but is still returned rather than an error. -/
theorem claim_C4_amended (callee : Node) (tys : Option (List Node))
    (args : List Node) (B : Node) (h : isIdent callee = false) :
    replaceCallableProperty (Node.call callee tys args) B =
      Node.call (Node.propertyAccess B callee) tys args ∧
    malformedAccessHead
        (replaceCallableProperty (Node.call callee tys args) B) = true := by
  refine ⟨rfl, ?_⟩
  rw [show replaceCallableProperty (Node.call callee tys args) B =
        Node.call (Node.propertyAccess B callee) tys args from rfl]
  simp [malformedAccessHead, h]

/-- Witness for the amended claim C4, at a concrete property-access callee. -/
theorem claim_C4_witness :
    isIdent (Node.propertyAccess (Node.ident "a") (Node.ident "b")) = false ∧
    (replaceCallableProperty
        (Node.call (Node.propertyAccess (Node.ident "a") (Node.ident "b"))
          none [Node.strLit "z"])
        (Node.ident "base") =
      Node.call
        (Node.propertyAccess (Node.ident "base")
          (Node.propertyAccess (Node.ident "a") (Node.ident "b")))
        none [Node.strLit "z"] ∧
     malformedAccessHead
        (replaceCallableProperty
          (Node.call (Node.propertyAccess (Node.ident "a") (Node.ident "b"))
            none [Node.strLit "z"])
          (Node.ident "base")) = true) :=
  ⟨rfl,
   claim_C4_amended (Node.propertyAccess (Node.ident "a") (Node.ident "b"))
     none [Node.strLit "z"] (Node.ident "base") rfl⟩

/-- Positional binding elements are never rest captures. -/
theorem filter_rest_positionalBindings (result : TransformResult) :
    (makePositionalBindingNodes result).filter bindingElementIsRest = [] := by
  have h : ∀ ps : List (String × CallExpr),
      (ps.map fun p =>
        Node.bindingElement false none (Node.ident p.1) none).filter
          bindingElementIsRest = [] := by
    intro ps
    induction ps with
    | nil => rfl
    | cons q qs ih => simpa [bindingElementIsRest] using ih
  exact h result.positionals

/-- Claim C5.  The handler callback is a one-parameter arrow function over
`args` whose body is exactly two statements: first a destructuring of `args`
binding `_`, `$0`, one name per declared positional in declaration order and
a rest capture named `options` present exactly when at least one option
exists; second a call of the original function name whose arguments are the
positional identifiers in declared order followed by the `options`
identifier exactly when at least one option exists — for all four
combinations of positionals and options present or absent. -/
theorem claim_C5 (result : TransformResult) :
    arrowParamNames (makeHandler result) = ["args"] ∧
    ∃ d a, arrowBodyStatements (makeHandler result) = [d, a] ∧
      (destructuredBindings d).map bindingElementName =
        ["_", "$0"] ++ result.positionals.map Prod.fst ++
        (if result.options.length = 0 then [] else ["options"]) ∧
      ((destructuredBindings d).filter bindingElementIsRest).map
          bindingElementName =
        (if result.options.length = 0 then [] else ["options"]) ∧
      destructuredInit d = some (Node.ident "args") ∧
      stmtCallCallee a = some (Node.ident result.name) ∧
      stmtCallArgs a = result.positionals.map (fun p => Node.ident p.1) ++
        (if result.options.length = 0 then [] else [Node.ident "options"]) := by
  refine ⟨rfl, makeDeconstructNode result, makeCommandApplyNode result,
    rfl, ?_, ?_, rfl, rfl, rfl⟩
  · by_cases h0 : result.options.length = 0 <;>
      simp [makeDeconstructNode, destructuredBindings,
            makePositionalBindingNodes, bindingElementName, h0,
            List.map_map, Function.comp]
  · by_cases h0 : result.options.length = 0 <;>
      simp [makeDeconstructNode, destructuredBindings, h0,
            List.filter_append,
            show (makePositionalBindingNodes result).filter
                bindingElementIsRest = []
              from filter_rest_positionalBindings result,
            bindingElementIsRest, bindingElementName]

/-- Splitting a concatenation of strings. -/
theorem concatList_append (A B : List String) :
    concatList (A ++ B) = concatList A ++ concatList B := by
  induction A with
  | nil =>
      rw [List.nil_append, show concatList [] = "" from rfl]
      rfl
  | cons x xs ih =>
      rw [List.cons_append, show concatList (x :: (xs ++ B)) =
            x ++ concatList (xs ++ B) from rfl, ih,
          show concatList (x :: xs) = x ++ concatList xs from rfl,
          String.append_assoc]

/-- `Array.prototype.join` with a space, unrolled as an accumulator fold. -/
theorem foldl_sep_concat (l : List String) :
    ∀ acc : String, l.foldl (fun a s => a ++ " " ++ s) acc =
      acc ++ concatList (l.map (fun s => " " ++ s)) := by
  induction l with
  | nil =>
      intro acc
      rw [List.foldl_nil, List.map_nil, show concatList [] = "" from rfl,
          String.append_empty]
  | cons x xs ih =>
      intro acc
      rw [List.foldl_cons, ih, List.map_cons,
          show concatList ((" " ++ x) :: xs.map (fun s => " " ++ s)) =
            (" " ++ x) ++ concatList (xs.map (fun s => " " ++ s)) from rfl]
      rw [String.append_assoc, String.append_assoc,
          String.append_assoc " " x]

/-- Joining a nonempty list with spaces. -/
theorem joinWith_cons (a : String) (l : List String) :
    joinWith " " (a :: l) = a ++ concatList (l.map (fun s => " " ++ s)) := by
  rw [show joinWith " " (a :: l) = l.foldl (fun acc s => acc ++ " " ++ s) a
        from rfl,
      foldl_sep_concat]

/-- Prepending the separator to an angle-bracketed name. -/
theorem space_angle (x : String) :
    " " ++ ("<" ++ x ++ ">") = " <" ++ x ++ ">" := by
  rw [← String.append_assoc, ← String.append_assoc]
  rfl

/-- Claim C6.  The command string starts with the literal `$0`, appends
`<name>` (space-separated) for every positional in declared order, and
appends the token `[...options]` exactly when at least one option exists; in
particular zero positionals and zero options give the string `$0`, and
positionals `file`, `out` with one option give
`$0 <file> <out> [...options]`. -/
theorem claim_C6 (result : TransformResult) :
    makePositionalCommandString result =
      Node.strLit ("$0" ++
        concatList (result.positionals.map (fun p => " <" ++ p.1 ++ ">")) ++
        (if result.options.length = 0 then "" else " [...options]")) ∧
    makePositionalCommandString sampleBareResult = Node.strLit "$0" ∧
    makePositionalCommandString sampleResult =
      Node.strLit "$0 <file> <out> [...options]" := by
  refine ⟨?_, rfl, rfl⟩
  rw [show makePositionalCommandString result =
        Node.strLit (joinWith " "
          ("$0" :: (result.positionals.map (fun p => "<" ++ p.1 ++ ">") ++
            (if result.options.length = 0 then [] else ["[...options]"]))))
        from rfl,
      joinWith_cons, List.map_append, concatList_append, List.map_map]
  have hpos : (result.positionals.map
      ((fun s => " " ++ s) ∘ fun p => "<" ++ p.1 ++ ">")) =
      result.positionals.map (fun p => " <" ++ p.1 ++ ">") := by
    refine List.map_congr_left ?_
    intro p _
    exact space_angle p.1
  rw [hpos]
  by_cases h0 : result.options.length = 0
  · rw [if_pos h0, if_pos h0, List.map_nil,
        show concatList ([] : List String) = "" from rfl,
        ← String.append_assoc]
  · rw [if_neg h0, if_neg h0, List.map_cons, List.map_nil,
        show concatList [" " ++ "[...options]"] =
          (" " ++ "[...options]") ++ "" from rfl]
    rw [show (" " ++ "[...options]") ++ "" = " [...options]" from rfl,
        ← String.append_assoc]

/-- Claim C8.  `render` merges its options argument over
`DEFAULT_RENDER_OPTIONS` with caller-supplied fields winning: no override
gives `strict`, `help`, `helpAlias`, `version` all true and `asyncFunction`,
`runnable` both false; overriding only `asyncFunction` to true leaves every
other field at its default. -/
theorem claim_C8 :
    defaults {} DEFAULT_RENDER_OPTIONS = DEFAULT_RENDER_OPTIONS ∧
    DEFAULT_RENDER_OPTIONS.strict = true ∧
    DEFAULT_RENDER_OPTIONS.help = true ∧
    DEFAULT_RENDER_OPTIONS.helpAlias = true ∧
    DEFAULT_RENDER_OPTIONS.version = true ∧
    DEFAULT_RENDER_OPTIONS.asyncFunction = false ∧
    DEFAULT_RENDER_OPTIONS.runnable = false ∧
    defaults { asyncFunction := some true } DEFAULT_RENDER_OPTIONS =
      { DEFAULT_RENDER_OPTIONS with asyncFunction := true } :=
  ⟨rfl, rfl, rfl, rfl, rfl, rfl, rfl, rfl⟩

/-- An optional link is a sublist of its singleton. -/
theorem ifLink_sublist (b : Bool) (x : Node) :
    (if b then [x] else []).Sublist [x] := by
  cases b
  · exact List.nil_sublist _
  · exact List.Sublist.refl _

/-- The top-level call list is always a sublist of the full six-link
sequence (fixed order, optional links present or absent). -/
theorem renderChainCalls_sublist_full (result : TransformResult)
    (opts : RenderOptions) :
    (renderChainCalls result opts).Sublist
      [Node.call (Node.ident "strict") none [],
       makeCommandNode result,
       Node.call (Node.ident "help") none [],
       Node.call (Node.ident "alias") none
         [Node.strLit "help", Node.strLit "h"],
       Node.call (Node.ident "version") none [],
       Node.call (Node.ident "parse") none [Node.ident "args"]] := by
  show (renderChainCalls result opts).Sublist
    ([Node.call (Node.ident "strict") none []] ++
     ([makeCommandNode result] ++
      ([Node.call (Node.ident "help") none []] ++
       ([Node.call (Node.ident "alias") none
           [Node.strLit "help", Node.strLit "h"]] ++
        ([Node.call (Node.ident "version") none []] ++
         [Node.call (Node.ident "parse") none [Node.ident "args"]])))))
  rw [renderChainCalls]
  simp only [List.append_assoc]
  exact (ifLink_sublist _ _).append ((List.Sublist.refl _).append
    ((ifLink_sublist _ _).append ((ifLink_sublist _ _).append
      ((ifLink_sublist _ _).append (List.Sublist.refl _)))))

/-- Every link in the top-level call list is a call expression. -/
theorem renderChainCalls_isCall (result : TransformResult)
    (opts : RenderOptions) :
    ∀ x ∈ renderChainCalls result opts, isCall x = true := by
  intro x hx
  have h6 := (renderChainCalls_sublist_full result opts).subset hx
  simp only [List.mem_cons, List.not_mem_nil, or_false] at h6
  rcases h6 with rfl | rfl | rfl | rfl | rfl | rfl <;> rfl

/-- Every definition call the builder chains is a call expression. -/
theorem builderCalls_isCall (result : TransformResult) :
    ∀ x ∈ (result.positionals.map (fun p => p.2.toNode) ++
           result.options.map (fun p => p.2.toNode)), isCall x = true := by
  intro x hx
  rcases List.mem_append.mp hx with h | h <;>
    obtain ⟨p, -, rfl⟩ := List.mem_map.mp h <;> rfl

/-- Claim C7.  In the top-level chain `render` folds, `command(...)` is
always present and `parse(args)` is always the last link, for all flag
combinations; the links appear in the fixed order `strict()` (iff strict),
`command(...)`, `help()` (iff help), `alias("help","h")` (iff helpAlias),
`version()` (iff version), `parse(args)` — the call list is a sublist of
that full six-link sequence, each optional link included exactly when its
flag is set. -/
theorem claim_C7 (result : TransformResult) (opts : RenderOptions) :
    (renderChainCalls result opts).getLast? =
      some (Node.call (Node.ident "parse") none [Node.ident "args"]) ∧
    makeCommandNode result ∈ renderChainCalls result opts ∧
    (renderChainCalls result opts).Sublist
      [Node.call (Node.ident "strict") none [],
       makeCommandNode result,
       Node.call (Node.ident "help") none [],
       Node.call (Node.ident "alias") none
         [Node.strLit "help", Node.strLit "h"],
       Node.call (Node.ident "version") none [],
       Node.call (Node.ident "parse") none [Node.ident "args"]] ∧
    List.Sublist
      [makeCommandNode result,
       Node.call (Node.ident "parse") none [Node.ident "args"]]
      (renderChainCalls result opts) ∧
    ((Node.call (Node.ident "strict") none [] ∈ renderChainCalls result opts) ↔
      opts.strict = true) ∧
    ((Node.call (Node.ident "help") none [] ∈ renderChainCalls result opts) ↔
      opts.help = true) ∧
    ((Node.call (Node.ident "alias") none [Node.strLit "help", Node.strLit "h"] ∈
        renderChainCalls result opts) ↔ opts.helpAlias = true) ∧
    ((Node.call (Node.ident "version") none [] ∈ renderChainCalls result opts) ↔
      opts.version = true) := by
  refine ⟨?_, ?_, ?_, ?_, ?_, ?_, ?_, ?_⟩
  · cases hs : opts.strict <;> cases hh : opts.help <;>
      cases ha : opts.helpAlias <;> cases hv : opts.version <;>
      simp [renderChainCalls, hs, hh, ha, hv]
  · cases hs : opts.strict <;> cases hh : opts.help <;>
      cases ha : opts.helpAlias <;> cases hv : opts.version <;>
      simp [renderChainCalls, hs, hh, ha, hv]
  · exact renderChainCalls_sublist_full result opts
  · rw [renderChainCalls]
    simp only [List.append_assoc]
    refine List.Sublist.trans ?_ (List.sublist_append_right _ _)
    refine List.Sublist.cons₂ _ ?_
    have t1 : [Node.call (Node.ident "parse") none [Node.ident "args"]].Sublist
        ((if opts.version then [Node.call (Node.ident "version") none []]
          else []) ++
         [Node.call (Node.ident "parse") none [Node.ident "args"]]) :=
      List.sublist_append_right _ _
    have t2 := t1.trans (List.sublist_append_right
      (if opts.helpAlias then
        [Node.call (Node.ident "alias") none
          [Node.strLit "help", Node.strLit "h"]]
       else []) _)
    exact t2.trans (List.sublist_append_right
      (if opts.help then [Node.call (Node.ident "help") none []] else []) _)
  · cases hs : opts.strict <;> cases hh : opts.help <;>
      cases ha : opts.helpAlias <;> cases hv : opts.version <;>
      simp [renderChainCalls, hs, hh, ha, hv, makeCommandNode]
  · cases hs : opts.strict <;> cases hh : opts.help <;>
      cases ha : opts.helpAlias <;> cases hv : opts.version <;>
      simp [renderChainCalls, hs, hh, ha, hv, makeCommandNode]
  · cases hs : opts.strict <;> cases hh : opts.help <;>
      cases ha : opts.helpAlias <;> cases hv : opts.version <;>
      simp [renderChainCalls, hs, hh, ha, hv, makeCommandNode]
  · cases hs : opts.strict <;> cases hh : opts.help <;>
      cases ha : opts.helpAlias <;> cases hv : opts.version <;>
      simp [renderChainCalls, hs, hh, ha, hv, makeCommandNode]

/-- The node list a successful plain-mode wrapper assembly produces
(fixture for witnesses). -/
def sampleWrapperNodes : List Node :=
  match makeWrapper [] sampleWrapperPlain with
  | .ok ns => ns
  | .error _ => []

/-- The node list a successful stdin-mode wrapper assembly produces
(fixture for witnesses). -/
def sampleStdinNodes : List Node :=
  match makeWrapper [] sampleWrapperStdin with
  | .ok ns => ns
  | .error _ => []

/-- Claim C2 (code bug).  The spec says runnable mode with
`context.args = ["a","b"]` yields a trailing call whose single argument is
the array literal of those strings — but the source builds the argument list
by spreading the ArrayLiteralExpression node itself
(`[...(args ? ts.createArrayLiteral(...) : [])]`), which is not iterable, so
evaluation throws a TypeError instead; with `runnable` false and no stdin the
returned sequence indeed ends with the wrapper declaration and carries no
trailing invocation node. -/
theorem claim_C2_code_divergence :
    makeCliCallNode "cli" (some ["a", "b"]) =
      Except.error "TypeError: spread of non-iterable object" ∧
    render sampleResult sampleOutputFile sampleEntryFile
        { runnable := some true } sampleContextArgs =
      Except.error "TypeError: spread of non-iterable object" ∧
    endsWithoutInvocation
        (render sampleResult sampleOutputFile sampleEntryFile {}
          sampleContextPlain) = true :=
  ⟨rfl, rfl, rfl⟩

/-- Claim C9.  When `context.stdin` is true and the wrapper assembler
returns (it throws exactly when `context.args` is also present), the node
sequence is the library import followed by every top-level statement of the
entry source file unchanged and in order, then the wrapper function
declaration, then the invocation node — even when `options.runnable` is
false, since stdin alone forces the invocation. -/
theorem claim_C9 (body : List Node) (o : MakeWrapperOptions) (ns : List Node)
    (hstdin : o.context.stdin = true) (h : makeWrapper body o = Except.ok ns) :
    ns = makeLibImportDeclarationNode "yargs" "yargs" o.context ::
         (o.entrySourceFile.statements ++
          [makeWrapperFunctionDeclaration body o.options,
           Node.call (Node.ident o.options.functionName) none []]) := by
  rcases hargs : o.context.args with _ | a
  · simp [makeWrapper, hstdin, hargs, makeCliCallNode, jsSpread] at h
    rw [← h]
  · simp [makeWrapper, hstdin, hargs, makeCliCallNode, jsSpread] at h

/-- Witness for claim C9, at the stdin-mode fixture. -/
theorem claim_C9_witness :
    sampleWrapperStdin.context.stdin = true ∧
    makeWrapper [] sampleWrapperStdin = Except.ok sampleStdinNodes ∧
    sampleStdinNodes =
      makeLibImportDeclarationNode "yargs" "yargs" sampleWrapperStdin.context ::
        (sampleWrapperStdin.entrySourceFile.statements ++
         [makeWrapperFunctionDeclaration [] sampleWrapperStdin.options,
          Node.call (Node.ident sampleWrapperStdin.options.functionName)
            none []]) :=
  ⟨rfl, rfl, claim_C9 [] sampleWrapperStdin sampleStdinNodes rfl rfl⟩

/-- Claim C10.  Whatever rendering options are used: the emitted
namespace import is always the first node and always binds the fixed local name
`yargs` (it never reads `options.lib`); the builder callback's parameter is
the fixed identifier `yargs` and its chain hangs off that same identifier;
only the top-level chain `render` builds is rooted at
`options.lib` — so overriding `lib` changes the top-level chain root but
neither the import binding nor the builder callback. -/
theorem claim_C10 (result : TransformResult) (opts : RenderOptions)
    (body : List Node) (o : MakeWrapperOptions) (ns : List Node)
    (h : makeWrapper body o = Except.ok ns) :
    ns.head? = some (makeLibImportDeclarationNode "yargs" "yargs" o.context) ∧
    namespaceImportName
        (makeLibImportDeclarationNode "yargs" "yargs" o.context) =
      some "yargs" ∧
    arrowParamNames (makeBuilder result) = ["yargs"] ∧
    (∃ chain, arrowReturnExpr (makeBuilder result) = some chain ∧
      chainRoot chain = Node.ident "yargs") ∧
    chainRoot (renderTopChain result opts) = Node.ident opts.lib := by
  refine ⟨?_, rfl, rfl, ?_, ?_⟩
  · rcases hb : (o.options.runnable || o.context.stdin) with _ | _
    · simp [makeWrapper, hb] at h
      rw [← h]
      rfl
    · rcases hargs : o.context.args with _ | a
      · simp [makeWrapper, hb, hargs, makeCliCallNode, jsSpread] at h
        rw [← h]
        rfl
      · simp [makeWrapper, hb, hargs, makeCliCallNode, jsSpread] at h
  · exact ⟨_, rfl, chainRoot_generateCallableChain _ _ (builderCalls_isCall result)⟩
  · exact chainRoot_generateCallableChain _ _ (renderChainCalls_isCall result opts)

/-- Witness for claim C10, at the plain-mode fixture. -/
theorem claim_C10_witness :
    makeWrapper [] sampleWrapperPlain = Except.ok sampleWrapperNodes ∧
    (sampleWrapperNodes.head? =
      some (makeLibImportDeclarationNode "yargs" "yargs"
        sampleWrapperPlain.context) ∧
     namespaceImportName
        (makeLibImportDeclarationNode "yargs" "yargs"
          sampleWrapperPlain.context) = some "yargs" ∧
     arrowParamNames (makeBuilder sampleResult) = ["yargs"] ∧
     (∃ chain, arrowReturnExpr (makeBuilder sampleResult) = some chain ∧
       chainRoot chain = Node.ident "yargs") ∧
     chainRoot (renderTopChain sampleResult DEFAULT_RENDER_OPTIONS) =
       Node.ident DEFAULT_RENDER_OPTIONS.lib) :=
  ⟨rfl, claim_C10 sampleResult DEFAULT_RENDER_OPTIONS [] sampleWrapperPlain
    sampleWrapperNodes rfl⟩

end TsCli
